import Mathlib

/-!
Shallow embedding of the agent-registry contract (`src/agent.rs`) of
cw-croncat, together with proofs about its commands and queries.

Storage is modelled explicitly: the `AGENTS` map as an association list,
the two queues as lists of addresses, and the singleton `CONFIG` record.
Commands are functions from storage state to `Except ContractError`
results; per the host's transactional semantics, a command that returns
an error leaves the persisted state unchanged (`step` below).

The types `Config`, `Agent`, `GenericBalance` and the helpers
`send_tokens` / `minus_tokens` live in `state.rs` / `helpers.rs`, which
are not part of the provided sources; they are modelled from the spec
(see the doc comments on those definitions). Everything in `agent.rs`
is translated directly.
-/

namespace Croncat

/-- An account address (cosmwasm `Addr`), modelled as a string. -/
abbrev Addr := String

/-- A native coin: denomination plus integer amount (cosmwasm `Coin`). -/
structure Coin where
  denom : String
  amount : Nat
deriving DecidableEq, Repr

/-- A cw20 token holding: token contract address plus amount. -/
structure Cw20CoinVerified where
  address : Addr
  amount : Nat
deriving DecidableEq, Repr

/-- Modelled from the spec: the Balance value type "holds a base-asset
amount plus a mapping from token-kind to amount" — a list of native
coins and a list of cw20 holdings (`GenericBalance` of `state.rs`,
which is not in the provided sources). -/
structure GenericBalance where
  native : List Coin
  cw20 : List Cw20CoinVerified
deriving DecidableEq, Repr

/-- The stored/derived agent status enum of `state.rs`. -/
inductive AgentStatus where
  | Active
  | Pending
  | Nominated
deriving DecidableEq, Repr

/-- The `Agent` record, with exactly the fields read and written by
`agent.rs` (status, payable destination, balance, stats, start time). -/
structure Agent where
  status : AgentStatus
  payable_account_id : Addr
  balance : GenericBalance
  total_tasks_executed : Nat
  last_missed_slot : Nat
  register_start : Nat
deriving DecidableEq, Repr

/-- Modelled from the spec: the `Config` singleton of `state.rs` (not in
the provided sources), restricted to the fields `agent.rs` consults:
the pause flag, the gas price and native denomination used by the
bootstrap check, and the aggregate available balance. -/
structure Config where
  paused : Bool
  gas_price : Nat
  native_denom : String
  available_balance : GenericBalance
deriving DecidableEq, Repr

/-- The caller information of a command (`MessageInfo`): sender address
and attached funds. -/
structure MessageInfo where
  sender : Addr
  funds : List Coin
deriving DecidableEq, Repr

/-- The contract error type. `agent.rs` only ever produces
`ContractError::CustomError { val }`; the spec's error kinds map to the
messages as follows: UnexpectedFunds = "Do not attach funds",
ConfigPaused = "Register agent paused", InsufficientBootstrapFunds =
"Insufficient deposit", AlreadyRegistered = "Agent already exists",
NotRegistered = "Agent doesnt exist". -/
inductive ContractError where
  | CustomError (val : String)
deriving DecidableEq, Repr

/-- A settlement submessage handed to the host (bank send of native
coins, or a cw20 transfer). -/
inductive SubMsg where
  | bankSend (to_address : Addr) (amount : List Coin)
  | cw20Transfer (contract_addr : Addr) (to_address : Addr) (amount : Nat)
deriving DecidableEq, Repr

/-- The response of `query_get_agent` (`GetAgentResponse`). -/
structure GetAgentResponse where
  status : AgentStatus
  payable_account_id : Addr
  balance : GenericBalance
  total_tasks_executed : Nat
  last_missed_slot : Nat
  register_start : Nat
deriving DecidableEq, Repr

/-! ### The `AGENTS` map, modelled as an association list -/

/-- Lookup in the `AGENTS` map (`AGENTS.may_load`). -/
def lookupAgent : List (Addr × Agent) → Addr → Option Agent
  | [], _ => none
  | (k, v) :: rest, a => if k = a then some v else lookupAgent rest a

/-- Insert/overwrite in the `AGENTS` map (the save half of
`AGENTS.update`). -/
def insertAgent : List (Addr × Agent) → Addr → Agent → List (Addr × Agent)
  | [], a, ag => [(a, ag)]
  | (k, v) :: rest, a, ag =>
      if k = a then (a, ag) :: rest else (k, v) :: insertAgent rest a ag

/-- Deletion from the `AGENTS` map (`AGENTS.remove`). -/
def removeAgent : List (Addr × Agent) → Addr → List (Addr × Agent)
  | [], _ => []
  | (k, v) :: rest, a =>
      if k = a then removeAgent rest a else (k, v) :: removeAgent rest a

theorem lookupAgent_insertAgent_self (m : List (Addr × Agent)) (a : Addr) (ag : Agent) :
    lookupAgent (insertAgent m a ag) a = some ag := by
  induction m with
  | nil => simp [insertAgent, lookupAgent]
  | cons kv rest ih =>
      obtain ⟨k, v⟩ := kv
      by_cases h : k = a <;> simp [insertAgent, lookupAgent, h, ih]

theorem lookupAgent_insertAgent_ne (m : List (Addr × Agent)) (a b : Addr) (ag : Agent)
    (h : b ≠ a) : lookupAgent (insertAgent m a ag) b = lookupAgent m b := by
  induction m with
  | nil => simp [insertAgent, lookupAgent, Ne.symm h]
  | cons kv rest ih =>
      obtain ⟨k, v⟩ := kv
      by_cases hk : k = a
      · subst hk
        simp [insertAgent, lookupAgent, Ne.symm h]
      · simp [insertAgent, lookupAgent, hk, ih]

theorem insertAgent_insertAgent (m : List (Addr × Agent)) (a : Addr) (ag1 ag2 : Agent) :
    insertAgent (insertAgent m a ag1) a ag2 = insertAgent m a ag2 := by
  induction m with
  | nil => simp [insertAgent]
  | cons kv rest ih =>
      obtain ⟨k, v⟩ := kv
      by_cases h : k = a <;> simp [insertAgent, h, ih]

theorem lookupAgent_removeAgent_self (m : List (Addr × Agent)) (a : Addr) :
    lookupAgent (removeAgent m a) a = none := by
  induction m with
  | nil => simp [removeAgent, lookupAgent]
  | cons kv rest ih =>
      obtain ⟨k, v⟩ := kv
      by_cases h : k = a <;> simp [removeAgent, lookupAgent, h, ih]

theorem lookupAgent_removeAgent_ne (m : List (Addr × Agent)) (a b : Addr)
    (h : b ≠ a) : lookupAgent (removeAgent m a) b = lookupAgent m b := by
  induction m with
  | nil => simp [removeAgent]
  | cons kv rest ih =>
      obtain ⟨k, v⟩ := kv
      by_cases hk : k = a
      · subst hk
        simp [removeAgent, lookupAgent, Ne.symm h, ih]
      · simp [removeAgent, lookupAgent, hk, ih]

theorem lookupAgent_insertAgent_cases (m : List (Addr × Agent)) (a b : Addr)
    (ag ag2 : Agent) (h : lookupAgent (insertAgent m a ag) b = some ag2) :
    (b = a ∧ ag2 = ag) ∨ lookupAgent m b = some ag2 := by
  by_cases hb : b = a
  · subst hb
    rw [lookupAgent_insertAgent_self] at h
    exact Or.inl ⟨rfl, (Option.some_injective _ h).symm⟩
  · rw [lookupAgent_insertAgent_ne m a b ag hb] at h
    exact Or.inr h

theorem lookupAgent_removeAgent_sub (m : List (Addr × Agent)) (a b : Addr)
    (ag : Agent) (h : lookupAgent (removeAgent m a) b = some ag) :
    lookupAgent m b = some ag := by
  by_cases hb : b = a
  · subst hb
    rw [lookupAgent_removeAgent_self] at h
    cases h
  · rwa [lookupAgent_removeAgent_ne m a b hb] at h

/-! ### Balance operations and host helpers -/

/-- The cosmwasm-std `has_coins` helper: whether `coins` contains at
least `required.amount` of `required.denom`. -/
def has_coins (coins : List Coin) (required : Coin) : Bool :=
  coins.any (fun c => c.denom == required.denom && decide (required.amount ≤ c.amount))

/-- Subtract one coin from a native-coin list: the first entry with a
matching denomination is decremented (no entry: no change). -/
def sub_coin : List Coin → Coin → List Coin
  | [], _ => []
  | x :: xs, c =>
      if x.denom = c.denom then { x with amount := x.amount - c.amount } :: xs
      else x :: sub_coin xs c

/-- Modelled from the spec: `GenericBalance::minus_tokens` of `state.rs`
(not in the provided sources) restricted to a native balance — the
spec's `debit(balance, asset, amount)`, which the source leaves
unguarded against underflow (here, truncating Nat subtraction). -/
def minus_native_tokens (b : GenericBalance) (coins : List Coin) : GenericBalance :=
  { b with native := coins.foldl sub_coin b.native }

/-- Modelled from the spec: `send_tokens` of `helpers.rs` (not in the
provided sources) — "compute a settlement request moving the agent's
entire current balance to its payable_account_id", returning the
settlement submessages together with the balance they move. -/
def send_tokens (to_address : Addr) (balance : GenericBalance) :
    List SubMsg × GenericBalance :=
  let native_msgs : List SubMsg :=
    if balance.native.isEmpty then [] else [SubMsg.bankSend to_address balance.native]
  let cw20_msgs : List SubMsg :=
    balance.cw20.map (fun c => SubMsg.cw20Transfer c.address to_address c.amount)
  (native_msgs ++ cw20_msgs, balance)

/-! ### Storage state and commands -/

/-- The contract storage: the `AGENTS` map, the two queues, and the
`CONFIG` singleton. -/
structure StorageState where
  agents : List (Addr × Agent)
  activeQueue : List Addr
  pendingQueue : List Addr
  config : Config
deriving DecidableEq, Repr

/-- `query_get_agent` of `agent.rs`: `None` for an unregistered id;
otherwise the stored fields, with a `Pending` agent that appears in the
pending-queue snapshot reported as `Nominated`. -/
def query_get_agent (s : StorageState) (account_id : Addr) : Option GetAgentResponse :=
  match lookupAgent s.agents account_id with
  | none => none
  | some a =>
      let pending := s.pendingQueue
      let agent_status : AgentStatus :=
        if a.status = AgentStatus.Pending then
          if account_id ∈ pending then AgentStatus.Nominated else a.status
        else a.status
      some { status := agent_status, payable_account_id := a.payable_account_id,
             balance := a.balance, total_tasks_executed := a.total_tasks_executed,
             last_missed_slot := a.last_missed_slot, register_start := a.register_start }

/-- `query_get_agent_ids` of `agent.rs`: the (active, pending) snapshots
verbatim. -/
def query_get_agent_ids (s : StorageState) : List Addr × List Addr :=
  (s.activeQueue, s.pendingQueue)

/-- `query_get_agent_tasks` of `agent.rs`: the `(0, 0)` placeholder. -/
def query_get_agent_tasks (_s : StorageState) (_account_id : Addr) : Nat × Nat :=
  (0, 0)

/-- The fresh `Agent` record created by `register_agent`: the elected
status, the payable destination, zero balance, zero stats, and the
block time as `register_start`. -/
def freshAgent (agent_status : AgentStatus) (payable_id : Addr) (env_time : Nat) : Agent :=
  { status := agent_status, payable_account_id := payable_id,
    balance := { native := [], cw20 := [] },
    total_tasks_executed := 0, last_missed_slot := 0,
    register_start := env_time }

/-- The `AGENTS.update` step at the end of `register_agent`: fail if the
account already has a record, otherwise insert the fresh record and
return the elected status. -/
def register_finish (s1 : StorageState) (account payable_id : Addr)
    (agent_status : AgentStatus) (env_time : Nat) :
    Except ContractError (StorageState × AgentStatus) :=
  match lookupAgent s1.agents account with
  | some _ => .error (.CustomError "Agent already exists")
  | none =>
      .ok ({ s1 with agents :=
               insertAgent s1.agents account (freshAgent agent_status payable_id env_time) },
           agent_status)

/-- `register_agent` of `agent.rs`. `q` is the host's bank-balance
querier (`deps.querier.query_all_balances`), `env_time` the block time
in nanoseconds. Checks, in source order: no attached funds; config not
paused; the (inverted, see `c3_bootstrap_check_inverted`) bootstrap
balance check; then pushes the account to the active queue if it is
empty, else to the tail of the pending queue, and inserts the fresh
agent record, failing if one already exists. -/
def register_agent (q : Addr → List Coin) (info : MessageInfo) (env_time : Nat)
    (payable_account_id : Option Addr) (s : StorageState) :
    Except ContractError (StorageState × AgentStatus) :=
  if info.funds ≠ [] then
    .error (.CustomError "Do not attach funds")
  else if s.config.paused then
    .error (.CustomError "Register agent paused")
  else if has_coins (q info.sender)
      { denom := s.config.native_denom, amount := s.config.gas_price * 4 } then
    .error (.CustomError "Insufficient deposit")
  else if s.activeQueue.length = 0 then
    register_finish { s with activeQueue := s.activeQueue ++ [info.sender] }
      info.sender (payable_account_id.getD info.sender) AgentStatus.Active env_time
  else
    register_finish { s with pendingQueue := s.pendingQueue ++ [info.sender] }
      info.sender (payable_account_id.getD info.sender) AgentStatus.Pending env_time

/-- `update_agent` of `agent.rs`: pause gate, then replace the
`payable_account_id` of the caller's record, failing if no record
exists. -/
def update_agent (info : MessageInfo) (payable_account_id : Addr) (s : StorageState) :
    Except ContractError StorageState :=
  if s.config.paused then
    .error (.CustomError "Register agent paused")
  else
    match lookupAgent s.agents info.sender with
    | some agent =>
        let ag : Agent := { agent with payable_account_id := payable_account_id }
        .ok { s with agents := insertAgent s.agents info.sender ag }
    | none => .error (.CustomError "Agent doesnt exist")

/-- `withdraw_balances` of `agent.rs`: fail if the caller has no record;
otherwise build the settlement submessages for the caller's whole
balance, subtract the native portion from `config.available_balance`
and save the config. The agent record itself is never written. -/
def withdraw_balances (info : MessageInfo) (s : StorageState) :
    Except ContractError (StorageState × List SubMsg) :=
  match lookupAgent s.agents info.sender with
  | none => .error (.CustomError "Agent doesnt exist")
  | some agent =>
      let msgs_balances := send_tokens agent.payable_account_id agent.balance
      let config := { s.config with
        available_balance :=
          minus_native_tokens s.config.available_balance msgs_balances.2.native }
      .ok ({ s with config := config }, msgs_balances.1)

/-- `accept_nomination_agent` of `agent.rs`: a no-op stub. -/
def accept_nomination_agent (_info : MessageInfo) (s : StorageState) :
    Except ContractError StorageState :=
  .ok s

/-- `unregister_agent` of `agent.rs`: unconditionally remove the
caller's record (the settlement of remaining balance is commented out
in the source, so no submessages are produced); queues and config are
untouched. -/
def unregister_agent (info : MessageInfo) (s : StorageState) :
    Except ContractError (StorageState × List SubMsg) :=
  .ok ({ s with agents := removeAgent s.agents info.sender }, [])

/-! ### Command-level transition system

Per the host's transactional semantics (§5 of the spec: a command
either runs to completion or is entirely discarded), a command that
returns an error leaves the persisted storage unchanged. -/

/-- One lifecycle command together with its inputs. -/
inductive Cmd where
  | register (q : Addr → List Coin) (info : MessageInfo) (env_time : Nat)
      (payable : Option Addr)
  | update (info : MessageInfo) (payable : Addr)
  | withdraw (info : MessageInfo)
  | accept_nomination (info : MessageInfo)
  | unregister (info : MessageInfo)

/-- Execute one command against the storage; on error the storage is
unchanged (host rollback). -/
def step (s : StorageState) (c : Cmd) : StorageState :=
  match c with
  | .register q info t p =>
      match register_agent q info t p s with
      | .ok r => r.1
      | .error _ => s
  | .update info p =>
      match update_agent info p s with
      | .ok s2 => s2
      | .error _ => s
  | .withdraw info =>
      match withdraw_balances info s with
      | .ok r => r.1
      | .error _ => s
  | .accept_nomination info =>
      match accept_nomination_agent info s with
      | .ok s2 => s2
      | .error _ => s
  | .unregister info =>
      match unregister_agent info s with
      | .ok r => r.1
      | .error _ => s

/-- Run a list of commands in order. -/
def runCmds (s : StorageState) (cmds : List Cmd) : StorageState :=
  cmds.foldl step s

/-- The storage as instantiation leaves it: empty registry, empty
queues, the given config. -/
def initState (cfg : Config) : StorageState :=
  { agents := [], activeQueue := [], pendingQueue := [], config := cfg }

/-- A state is reachable when some command sequence produces it from
the initial state. -/
def Reachable (cfg : Config) (s : StorageState) : Prop :=
  ∃ cmds : List Cmd, s = runCmds (initState cfg) cmds

/-! ### Shape lemmas for successful commands -/

theorem register_finish_ok_shape (s1 : StorageState) (account payable_id : Addr)
    (ast : AgentStatus) (t : Nat) (s2 : StorageState) (st : AgentStatus)
    (h : register_finish s1 account payable_id ast t = .ok (s2, st)) :
    lookupAgent s1.agents account = none ∧ st = ast ∧
    s2 = { s1 with agents := insertAgent s1.agents account (freshAgent ast payable_id t) } := by
  unfold register_finish at h
  split at h
  · exact Except.noConfusion h
  · rename_i hl
    simp only [Except.ok.injEq, Prod.mk.injEq] at h
    exact ⟨hl, h.2.symm, h.1.symm⟩

theorem register_agent_ok_shape (q : Addr → List Coin) (info : MessageInfo)
    (t : Nat) (p : Option Addr) (s s2 : StorageState) (st : AgentStatus)
    (h : register_agent q info t p s = .ok (s2, st)) :
    (st = AgentStatus.Active ∨ st = AgentStatus.Pending) ∧
    lookupAgent s.agents info.sender = none ∧
    s2.agents = insertAgent s.agents info.sender (freshAgent st (p.getD info.sender) t) ∧
    (s.activeQueue.length = 0 →
       s2.activeQueue = s.activeQueue ++ [info.sender] ∧
       s2.pendingQueue = s.pendingQueue ∧ st = AgentStatus.Active) ∧
    (s.activeQueue.length ≠ 0 →
       s2.pendingQueue = s.pendingQueue ++ [info.sender] ∧
       s2.activeQueue = s.activeQueue ∧ st = AgentStatus.Pending) ∧
    s2.config = s.config := by
  simp only [register_agent] at h
  split at h
  · exact Except.noConfusion h
  · split at h
    · exact Except.noConfusion h
    · split at h
      · exact Except.noConfusion h
      · split at h
        · rename_i hlen
          obtain ⟨hl, hst, hs2⟩ := register_finish_ok_shape _ _ _ _ _ _ _ h
          subst hst
          subst hs2
          refine ⟨Or.inl rfl, hl, rfl, fun _ => ⟨rfl, rfl, rfl⟩, fun hne => ?_, rfl⟩
          exact absurd hlen hne
        · rename_i hlen
          obtain ⟨hl, hst, hs2⟩ := register_finish_ok_shape _ _ _ _ _ _ _ h
          subst hst
          subst hs2
          exact ⟨Or.inr rfl, hl, rfl, fun heq => absurd heq hlen,
                 fun _ => ⟨rfl, rfl, rfl⟩, rfl⟩

theorem update_agent_ok_shape (info : MessageInfo) (p : Addr) (s s2 : StorageState)
    (h : update_agent info p s = .ok s2) :
    s.config.paused = false ∧
    ∃ agent, lookupAgent s.agents info.sender = some agent ∧
      s2 = { s with agents := insertAgent s.agents info.sender { agent with payable_account_id := p } } := by
  unfold update_agent at h
  split at h
  · exact Except.noConfusion h
  · rename_i hp
    split at h
    · rename_i agent hl
      simp only [Except.ok.injEq] at h
      exact ⟨by simpa using hp, agent, hl, h.symm⟩
    · exact Except.noConfusion h

theorem withdraw_balances_ok_shape (info : MessageInfo) (s s2 : StorageState)
    (msgs : List SubMsg) (h : withdraw_balances info s = .ok (s2, msgs)) :
    ∃ agent, lookupAgent s.agents info.sender = some agent ∧
      s2 = { s with config := { s.config with available_balance := minus_native_tokens s.config.available_balance agent.balance.native } } ∧
      msgs = (send_tokens agent.payable_account_id agent.balance).1 := by
  unfold withdraw_balances at h
  split at h
  · exact Except.noConfusion h
  · rename_i agent hl
    simp only [Except.ok.injEq, Prod.mk.injEq] at h
    exact ⟨agent, hl, h.1.symm, h.2.symm⟩

/-! ### The stored-status invariant: `Nominated` is never persisted -/

/-- No agent record in storage carries the derived status `Nominated`. -/
def StoredNotNominated (s : StorageState) : Prop :=
  ∀ a ag, lookupAgent s.agents a = some ag → ag.status ≠ AgentStatus.Nominated

theorem storedNotNominated_step (s : StorageState) (c : Cmd)
    (h : StoredNotNominated s) : StoredNotNominated (step s c) := by
  cases c with
  | register q info t p =>
      cases hreg : register_agent q info t p s with
      | error e =>
          have hstep : step s (Cmd.register q info t p) = s := by simp [step, hreg]
          rw [hstep]; exact h
      | ok r =>
          have hstep : step s (Cmd.register q info t p) = r.1 := by simp [step, hreg]
          rw [hstep]
          obtain ⟨hst, _, hag, _, _, _⟩ :=
            register_agent_ok_shape q info t p s r.1 r.2 (by rw [hreg])
          intro a ag hl
          rw [hag] at hl
          rcases lookupAgent_insertAgent_cases _ _ _ _ _ hl with ⟨_, hEq⟩ | hl2
          · subst hEq
            rcases hst with h1 | h1 <;> simp [h1, freshAgent]
          · exact h a ag hl2
  | update info p =>
      cases hupd : update_agent info p s with
      | error e =>
          have hstep : step s (Cmd.update info p) = s := by simp [step, hupd]
          rw [hstep]; exact h
      | ok s2 =>
          have hstep : step s (Cmd.update info p) = s2 := by simp [step, hupd]
          rw [hstep]
          obtain ⟨_, agent, hl, hs2⟩ := update_agent_ok_shape info p s s2 hupd
          subst hs2
          intro a ag hla
          rcases lookupAgent_insertAgent_cases s.agents info.sender a
              { agent with payable_account_id := p } ag hla with ⟨_, hEq⟩ | hl2
          · subst hEq
            exact h info.sender agent hl
          · exact h a ag hl2
  | withdraw info =>
      cases hw : withdraw_balances info s with
      | error e =>
          have hstep : step s (Cmd.withdraw info) = s := by simp [step, hw]
          rw [hstep]; exact h
      | ok r =>
          have hstep : step s (Cmd.withdraw info) = r.1 := by simp [step, hw]
          rw [hstep]
          obtain ⟨agent, hl, hs2, _⟩ :=
            withdraw_balances_ok_shape info s r.1 r.2 (by rw [hw])
          rw [hs2]
          exact fun a ag hla => h a ag hla
  | accept_nomination info =>
      exact fun a ag hla => h a ag hla
  | unregister info =>
      exact fun a ag hla => h a ag (lookupAgent_removeAgent_sub _ _ _ _ hla)

theorem storedNotNominated_runCmds (cmds : List Cmd) (s0 : StorageState)
    (h : StoredNotNominated s0) : StoredNotNominated (runCmds s0 cmds) := by
  induction cmds generalizing s0 with
  | nil => exact h
  | cons c cs ih => exact ih (step s0 c) (storedNotNominated_step s0 c h)

theorem storedNotNominated_init (cfg : Config) : StoredNotNominated (initState cfg) :=
  fun _ _ hl => Option.noConfusion hl

theorem storedNotNominated_reachable (cfg : Config) (s : StorageState)
    (h : Reachable cfg s) : StoredNotNominated s := by
  obtain ⟨cmds, rfl⟩ := h
  exact storedNotNominated_runCmds cmds (initState cfg) (storedNotNominated_init cfg)

/-! ### Concrete fixtures used by witnesses and counterexamples -/

/-- A plain unpaused config: gas price 1, native denom `uatom`, empty
available balance. -/
def cfg0 : Config :=
  { paused := false, gas_price := 1, native_denom := "uatom",
    available_balance := { native := [], cw20 := [] } }

/-- A bank querier under which every account holds no coins. -/
def qEmpty : Addr → List Coin := fun _ => []

/-- Caller `alice` with no attached funds. -/
def infoAlice : MessageInfo := { sender := "alice", funds := [] }

/-- Caller `bob` with no attached funds. -/
def infoBob : MessageInfo := { sender := "bob", funds := [] }

/-- The state after `alice` registers on the empty initial state. -/
def sAfterAlice : StorageState :=
  { agents := [("alice", freshAgent AgentStatus.Active "alice" 0)],
    activeQueue := ["alice"], pendingQueue := [], config := cfg0 }

/-- Register `alice`, unregister her, then register her again. -/
def reregisterCmds : List Cmd :=
  [Cmd.register qEmpty infoAlice 0 none, Cmd.unregister infoAlice,
   Cmd.register qEmpty infoAlice 7 none]

/-- Register `alice` (becomes Active), then `bob` (becomes Pending). -/
def regABCmds : List Cmd :=
  [Cmd.register qEmpty infoAlice 0 none, Cmd.register qEmpty infoBob 1 none]

/-- The state reached by `regABCmds` from the initial state. -/
def sAB : StorageState := runCmds (initState cfg0) regABCmds

/-- A registered agent `alice` holding a stored balance of 100 uatom. -/
def agentAlice : Agent :=
  { status := AgentStatus.Active, payable_account_id := "alice-payable",
    balance := { native := [{ denom := "uatom", amount := 100 }], cw20 := [] },
    total_tasks_executed := 3, last_missed_slot := 0, register_start := 1 }

/-- A state with `alice` registered (balance 100 uatom) and the config
holding 250 uatom of aggregate available balance. -/
def sFunded : StorageState :=
  { agents := [("alice", agentAlice)], activeQueue := ["alice"], pendingQueue := [],
    config := { paused := false, gas_price := 1, native_denom := "uatom",
                available_balance := { native := [{ denom := "uatom", amount := 250 }], cw20 := [] } } }

/-- `sFunded` with the aggregate available balance decreased by the 100
uatom withdrawn (and nothing else changed). -/
def sFundedAfterWithdraw : StorageState :=
  { agents := [("alice", agentAlice)], activeQueue := ["alice"], pendingQueue := [],
    config := { paused := false, gas_price := 1, native_denom := "uatom",
                available_balance := { native := [{ denom := "uatom", amount := 150 }], cw20 := [] } } }

/-- A paused config. -/
def cfgPaused : Config :=
  { paused := true, gas_price := 1, native_denom := "uatom",
    available_balance := { native := [], cw20 := [] } }

/-- Caller `carol` who attached 1 uatom to her call. -/
def infoCarolFunds : MessageInfo :=
  { sender := "carol", funds := [{ denom := "uatom", amount := 1 }] }

/-- Config with gas price 5, so the bootstrap cost is 20 uatom. -/
def cfgGas5 : Config :=
  { paused := false, gas_price := 5, native_denom := "uatom",
    available_balance := { native := [], cw20 := [] } }

/-- A bank querier under which every account holds exactly the 20 uatom
bootstrap cost of `cfgGas5`. -/
def qBootstrap : Addr → List Coin := fun _ => [{ denom := "uatom", amount := 20 }]

/-! ### Claim theorems -/

/-- C1: the claimed queue-disjointness invariant ("for every identity,
in every state reachable by register/update/withdraw/accept_nomination/
unregister, the identity is in at most one of the active and pending
queues") fails on the code: `unregister_agent` does not remove the
caller from her queue, so register → unregister → register leaves
`alice` a member of both the active and the pending queue. -/
theorem c1_queue_disjointness_violated :
    "alice" ∈ (runCmds (initState cfg0) reregisterCmds).activeQueue ∧
    "alice" ∈ (runCmds (initState cfg0) reregisterCmds).pendingQueue := by
  decide

/-- C2: on a registered caller with stored balance 100 uatom,
`withdraw_balances` emits a settlement of the full 100 uatom to the
payable account and decreases `Config.available_balance` by 100
(250 → 150), but — against the claim — it never writes the agent
record, whose stored balance remains 100 rather than becoming zero. -/
theorem c2_withdraw_does_not_zero_balance :
    withdraw_balances infoAlice sFunded =
      .ok (sFundedAfterWithdraw,
           [SubMsg.bankSend "alice-payable" [{ denom := "uatom", amount := 100 }]]) ∧
    lookupAgent sFundedAfterWithdraw.agents "alice" = some agentAlice ∧
    agentAlice.balance.native = [{ denom := "uatom", amount := 100 }] :=
  ⟨rfl, rfl, rfl⟩

/-- C3: the bootstrap-funds check of `register_agent` is inverted. With
gas price 5 (bootstrap cost 20 uatom), a caller holding exactly 20
uatom is rejected with "Insufficient deposit", while a caller holding
nothing passes the check and is registered — the opposite of the
claim's polarity. -/
theorem c3_bootstrap_check_inverted :
    register_agent qBootstrap infoAlice 0 none (initState cfgGas5) =
      .error (.CustomError "Insufficient deposit") ∧
    register_agent qEmpty infoAlice 0 none (initState cfgGas5) =
      .ok ({ agents := [("alice", freshAgent AgentStatus.Active "alice" 0)],
             activeQueue := ["alice"], pendingQueue := [], config := cfgGas5 },
           AgentStatus.Active) :=
  ⟨rfl, rfl⟩

/-- C4: for every successful `register_agent` call, if the active queue
was empty the caller is appended to the active queue and the returned
status is `Active`, with the pending queue untouched; otherwise the
caller is appended to the tail of the pending queue (preserving the
prior entries in order) and the returned status is `Pending`, with the
active queue untouched. -/
theorem c4_election_policy (q : Addr → List Coin) (info : MessageInfo) (t : Nat)
    (p : Option Addr) (s s2 : StorageState) (st : AgentStatus)
    (h : register_agent q info t p s = .ok (s2, st)) :
    (s.activeQueue = [] →
       st = AgentStatus.Active ∧ s2.activeQueue = s.activeQueue ++ [info.sender] ∧
       s2.pendingQueue = s.pendingQueue) ∧
    (s.activeQueue ≠ [] →
       st = AgentStatus.Pending ∧ s2.pendingQueue = s.pendingQueue ++ [info.sender] ∧
       s2.activeQueue = s.activeQueue) := by
  obtain ⟨_, _, _, hact, hpend, _⟩ := register_agent_ok_shape q info t p s s2 st h
  constructor
  · intro he
    obtain ⟨h1, h2, h3⟩ := hact (by simp [he])
    exact ⟨h3, h1, h2⟩
  · intro hne
    obtain ⟨h1, h2, h3⟩ := hpend (by simpa [List.length_eq_zero] using hne)
    exact ⟨h3, h1, h2⟩

/-- Witness for C4 at a concrete input: registering `alice` on the
empty initial state succeeds with status `Active`. -/
theorem c4_election_policy_witness :
    register_agent qEmpty infoAlice 0 none (initState cfg0) =
      .ok (sAfterAlice, AgentStatus.Active) ∧
    (((initState cfg0).activeQueue = [] →
        AgentStatus.Active = AgentStatus.Active ∧
        sAfterAlice.activeQueue = (initState cfg0).activeQueue ++ [infoAlice.sender] ∧
        sAfterAlice.pendingQueue = (initState cfg0).pendingQueue) ∧
     ((initState cfg0).activeQueue ≠ [] →
        AgentStatus.Active = AgentStatus.Pending ∧
        sAfterAlice.pendingQueue = (initState cfg0).pendingQueue ++ [infoAlice.sender] ∧
        sAfterAlice.activeQueue = (initState cfg0).activeQueue)) :=
  ⟨rfl, c4_election_policy qEmpty infoAlice 0 none (initState cfg0) sAfterAlice
          AgentStatus.Active rfl⟩

/-- The read-time status projection: `Nominated` exactly for a stored
`Pending` agent present in the pending-queue snapshot, otherwise the
stored status. -/
def derivedStatus (s : StorageState) (account_id : Addr) (ag : Agent) : AgentStatus :=
  if ag.status = AgentStatus.Pending ∧ account_id ∈ s.pendingQueue then
    AgentStatus.Nominated
  else ag.status

theorem query_get_agent_some (s : StorageState) (a : Addr) (ag : Agent)
    (ha : lookupAgent s.agents a = some ag) (hn : ag.status ≠ AgentStatus.Nominated) :
    query_get_agent s a =
      some { status := derivedStatus s a ag, payable_account_id := ag.payable_account_id,
             balance := ag.balance, total_tasks_executed := ag.total_tasks_executed,
             last_missed_slot := ag.last_missed_slot, register_start := ag.register_start } ∧
    (derivedStatus s a ag = AgentStatus.Nominated ↔
       ag.status = AgentStatus.Pending ∧ a ∈ s.pendingQueue) := by
  constructor
  · unfold query_get_agent derivedStatus
    rw [ha]
    by_cases hst : ag.status = AgentStatus.Pending
    · by_cases hm : a ∈ s.pendingQueue <;> simp [hst, hm]
    · simp [hst]
  · unfold derivedStatus
    by_cases hst : ag.status = AgentStatus.Pending
    · by_cases hm : a ∈ s.pendingQueue <;> simp [hst, hm]
    · simp [hst, hn]

/-- C5: in every reachable state, `Nominated` is never the stored
status; `query_get_agent` returns `none` exactly for identities with no
record; and for a registered identity it returns the stored fields with
the derived status, which is `Nominated` precisely when the stored
status is `Pending` and the identity appears in the pending-queue
snapshot (so a Pending agent absent from the snapshot reports Pending,
and an Active agent always reports Active). -/
theorem c5_nominated_derived (cfg : Config) (s : StorageState) (a c : Addr)
    (ag : Agent) (h : Reachable cfg s) (ha : lookupAgent s.agents a = some ag) :
    ag.status ≠ AgentStatus.Nominated ∧
    (query_get_agent s c = none ↔ lookupAgent s.agents c = none) ∧
    query_get_agent s a =
      some { status := derivedStatus s a ag, payable_account_id := ag.payable_account_id,
             balance := ag.balance, total_tasks_executed := ag.total_tasks_executed,
             last_missed_slot := ag.last_missed_slot, register_start := ag.register_start } ∧
    (derivedStatus s a ag = AgentStatus.Nominated ↔
       ag.status = AgentStatus.Pending ∧ a ∈ s.pendingQueue) := by
  have hn := storedNotNominated_reachable cfg s h a ag ha
  have hq := query_get_agent_some s a ag ha hn
  refine ⟨hn, ?_, hq.1, hq.2⟩
  cases hc : lookupAgent s.agents c with
  | none => simp [query_get_agent, hc]
  | some agc => simp [query_get_agent, hc]

/-- Witness for C5 at a concrete input: in the reachable state where
`alice` is Active and `bob` is Pending and in the pending queue, the
characterization holds for `bob` (whose derived status is Nominated)
and the unregistered identity `zoe`. -/
theorem c5_nominated_derived_witness :
    (freshAgent AgentStatus.Pending "bob" 1).status ≠ AgentStatus.Nominated ∧
    (query_get_agent sAB "zoe" = none ↔ lookupAgent sAB.agents "zoe" = none) ∧
    query_get_agent sAB "bob" =
      some { status := derivedStatus sAB "bob" (freshAgent AgentStatus.Pending "bob" 1),
             payable_account_id := (freshAgent AgentStatus.Pending "bob" 1).payable_account_id,
             balance := (freshAgent AgentStatus.Pending "bob" 1).balance,
             total_tasks_executed := (freshAgent AgentStatus.Pending "bob" 1).total_tasks_executed,
             last_missed_slot := (freshAgent AgentStatus.Pending "bob" 1).last_missed_slot,
             register_start := (freshAgent AgentStatus.Pending "bob" 1).register_start } ∧
    (derivedStatus sAB "bob" (freshAgent AgentStatus.Pending "bob" 1) = AgentStatus.Nominated ↔
       (freshAgent AgentStatus.Pending "bob" 1).status = AgentStatus.Pending ∧
       "bob" ∈ sAB.pendingQueue) :=
  c5_nominated_derived cfg0 sAB "bob" "zoe" (freshAgent AgentStatus.Pending "bob" 1)
    ⟨regABCmds, rfl⟩ rfl

theorem register_finish_existing (s1 : StorageState) (account payable_id : Addr)
    (ast : AgentStatus) (t : Nat) (ag : Agent)
    (hr : lookupAgent s1.agents account = some ag) :
    register_finish s1 account payable_id ast t =
      .error (.CustomError "Agent already exists") := by
  unfold register_finish
  rw [hr]

/-- C6: a register call by a caller who already has an Agent record —
and passes the earlier attached-funds, pause and bootstrap checks —
fails with the AlreadyRegistered error ("Agent already exists"), and
under the host's all-or-nothing transaction semantics the state after
the command is exactly the state before it (no queue entry persists). -/
theorem c6_already_registered (q : Addr → List Coin) (info : MessageInfo) (t : Nat)
    (p : Option Addr) (s : StorageState) (ag : Agent)
    (hf : info.funds = [])
    (hp : s.config.paused = false)
    (hc : has_coins (q info.sender)
            { denom := s.config.native_denom, amount := s.config.gas_price * 4 } = false)
    (hr : lookupAgent s.agents info.sender = some ag) :
    register_agent q info t p s = .error (.CustomError "Agent already exists") ∧
    step s (Cmd.register q info t p) = s := by
  have hmain : register_agent q info t p s =
      .error (.CustomError "Agent already exists") := by
    unfold register_agent
    split
    · rename_i hcond
      exact absurd hf hcond
    · split
      · rename_i hcond
        rw [hp] at hcond
        exact absurd hcond (by simp)
      · split
        · rename_i hcond
          rw [hc] at hcond
          exact absurd hcond (by simp)
        · split
          · exact register_finish_existing _ _ _ _ _ _ hr
          · exact register_finish_existing _ _ _ _ _ _ hr
  exact ⟨hmain, by simp [step, hmain]⟩

/-- Witness for C6 at a concrete input: `alice` registering again on
the state where she is already registered. -/
theorem c6_already_registered_witness :
    infoAlice.funds = [] ∧ sAfterAlice.config.paused = false ∧
    has_coins (qEmpty infoAlice.sender)
      { denom := sAfterAlice.config.native_denom,
        amount := sAfterAlice.config.gas_price * 4 } = false ∧
    lookupAgent sAfterAlice.agents infoAlice.sender =
      some (freshAgent AgentStatus.Active "alice" 0) ∧
    (register_agent qEmpty infoAlice 5 none sAfterAlice =
       .error (.CustomError "Agent already exists") ∧
     step sAfterAlice (Cmd.register qEmpty infoAlice 5 none) = sAfterAlice) :=
  ⟨rfl, rfl, rfl, rfl,
   c6_already_registered qEmpty infoAlice 5 none sAfterAlice
     (freshAgent AgentStatus.Active "alice" 0) rfl rfl rfl rfl⟩

/-- C7 counterexample: the claim "whenever Config.paused is true,
register and update each fail with the ConfigPaused error kind" fails
for a register call with attached funds — the attached-funds check
precedes the pause check in `register_agent`, so on a paused config the
caller `carol` (who attached 1 uatom) gets the UnexpectedFunds error
("Do not attach funds"), not ConfigPaused ("Register agent paused"). -/
theorem c7_pause_counterexample :
    (initState cfgPaused).config.paused = true ∧
    register_agent qEmpty infoCarolFunds 0 none (initState cfgPaused) =
      .error (.CustomError "Do not attach funds") ∧
    ContractError.CustomError "Do not attach funds" ≠
      ContractError.CustomError "Register agent paused" := by
  refine ⟨rfl, rfl, ?_⟩
  decide

/-- C7 amended: whenever the config is paused, `update_agent` always,
and `register_agent` on a call without attached funds, fail with the
ConfigPaused error ("Register agent paused") and leave the state
unchanged; the queries `query_get_agent`, `query_get_agent_ids` and
`query_get_agent_tasks` never consult the config, so they return the
same result under any config (in particular, paused or not). -/
theorem c7_pause_gate (s : StorageState) (q : Addr → List Coin)
    (info info2 : MessageInfo) (t : Nat) (p : Option Addr) (p2 : Addr)
    (cfg2 : Config) (a : Addr)
    (hp : s.config.paused = true) (hf : info.funds = []) :
    register_agent q info t p s = .error (.CustomError "Register agent paused") ∧
    step s (Cmd.register q info t p) = s ∧
    update_agent info2 p2 s = .error (.CustomError "Register agent paused") ∧
    step s (Cmd.update info2 p2) = s ∧
    query_get_agent { s with config := cfg2 } a = query_get_agent s a ∧
    query_get_agent_ids { s with config := cfg2 } = query_get_agent_ids s ∧
    query_get_agent_tasks { s with config := cfg2 } a = query_get_agent_tasks s a := by
  have hreg : register_agent q info t p s =
      .error (.CustomError "Register agent paused") := by
    unfold register_agent
    rw [if_neg (by simp [hf]), if_pos hp]
  have hupd : update_agent info2 p2 s =
      .error (.CustomError "Register agent paused") := by
    unfold update_agent
    rw [if_pos hp]
  exact ⟨hreg, by simp [step, hreg], hupd, by simp [step, hupd], rfl, rfl, rfl⟩

/-- Witness for C7's amended theorem at a concrete input: the paused
initial state, register by `bob` (no funds), update by `alice`, and the
queries compared between the paused config and `cfg0`. -/
theorem c7_pause_gate_witness :
    (initState cfgPaused).config.paused = true ∧ infoBob.funds = [] ∧
    (register_agent qEmpty infoBob 0 none (initState cfgPaused) =
       .error (.CustomError "Register agent paused") ∧
     step (initState cfgPaused) (Cmd.register qEmpty infoBob 0 none) =
       initState cfgPaused ∧
     update_agent infoAlice "newpay" (initState cfgPaused) =
       .error (.CustomError "Register agent paused") ∧
     step (initState cfgPaused) (Cmd.update infoAlice "newpay") =
       initState cfgPaused ∧
     query_get_agent { initState cfgPaused with config := cfg0 } "alice" =
       query_get_agent (initState cfgPaused) "alice" ∧
     query_get_agent_ids { initState cfgPaused with config := cfg0 } =
       query_get_agent_ids (initState cfgPaused) ∧
     query_get_agent_tasks { initState cfgPaused with config := cfg0 } "alice" =
       query_get_agent_tasks (initState cfgPaused) "alice") :=
  ⟨rfl, rfl,
   c7_pause_gate (initState cfgPaused) qEmpty infoBob infoAlice 0 none "newpay"
     cfg0 "alice" rfl rfl⟩

/-- C8: for a registered caller (config not paused), `update_agent`
succeeds and only replaces the `payable_account_id` of the caller's
record — the rest of the record, the queues and the config are exactly
preserved — and running the same update a second time yields the very
same state (idempotence). -/
theorem c8_update_only_payable (info : MessageInfo) (p : Addr) (s : StorageState)
    (agent : Agent) (hp : s.config.paused = false)
    (hr : lookupAgent s.agents info.sender = some agent) :
    update_agent info p s = .ok { s with agents := insertAgent s.agents info.sender { agent with payable_account_id := p } } ∧
    lookupAgent (insertAgent s.agents info.sender { agent with payable_account_id := p }) info.sender = some { agent with payable_account_id := p } ∧
    update_agent info p { s with agents := insertAgent s.agents info.sender { agent with payable_account_id := p } } = .ok { s with agents := insertAgent s.agents info.sender { agent with payable_account_id := p } } := by
  have h2 := lookupAgent_insertAgent_self s.agents info.sender
    ({ agent with payable_account_id := p })
  refine ⟨?_, h2, ?_⟩
  · unfold update_agent
    rw [if_neg (by simp [hp]), hr]
  · unfold update_agent
    rw [if_neg (by simp [hp])]
    simp only [h2, insertAgent_insertAgent]

/-- Witness for C8 at a concrete input: `alice` updating her payable
destination to `newpay` on `sFunded`, twice. -/
theorem c8_update_only_payable_witness :
    sFunded.config.paused = false ∧
    lookupAgent sFunded.agents infoAlice.sender = some agentAlice ∧
    (update_agent infoAlice "newpay" sFunded = .ok { sFunded with agents := insertAgent sFunded.agents infoAlice.sender { agentAlice with payable_account_id := "newpay" } } ∧
     lookupAgent (insertAgent sFunded.agents infoAlice.sender { agentAlice with payable_account_id := "newpay" }) infoAlice.sender = some { agentAlice with payable_account_id := "newpay" } ∧
     update_agent infoAlice "newpay" { sFunded with agents := insertAgent sFunded.agents infoAlice.sender { agentAlice with payable_account_id := "newpay" } } = .ok { sFunded with agents := insertAgent sFunded.agents infoAlice.sender { agentAlice with payable_account_id := "newpay" } }) :=
  ⟨rfl, rfl, c8_update_only_payable infoAlice "newpay" sFunded agentAlice rfl rfl⟩

/-- C9: `unregister_agent` succeeds for every caller (there is no
NotRegistered check), removes exactly the caller's record from the
registry (any other identity's record is untouched and the caller's is
gone), emits no settlement submessages, and leaves both queues and the
config unchanged. -/
theorem c9_unregister_frame (info : MessageInfo) (s : StorageState) (a : Addr)
    (h : a ≠ info.sender) :
    unregister_agent info s =
      .ok ({ s with agents := removeAgent s.agents info.sender }, []) ∧
    lookupAgent (removeAgent s.agents info.sender) info.sender = none ∧
    lookupAgent (removeAgent s.agents info.sender) a = lookupAgent s.agents a :=
  ⟨rfl, lookupAgent_removeAgent_self s.agents info.sender,
   lookupAgent_removeAgent_ne s.agents info.sender a h⟩

/-- Witness for C9 at a concrete input: `alice` unregistering on
`sFunded`, with `bob` as the untouched other identity. -/
theorem c9_unregister_frame_witness :
    "bob" ≠ infoAlice.sender ∧
    (unregister_agent infoAlice sFunded =
       .ok ({ sFunded with agents := removeAgent sFunded.agents infoAlice.sender }, []) ∧
     lookupAgent (removeAgent sFunded.agents infoAlice.sender) infoAlice.sender = none ∧
     lookupAgent (removeAgent sFunded.agents infoAlice.sender) "bob" =
       lookupAgent sFunded.agents "bob") :=
  ⟨by decide, c9_unregister_frame infoAlice sFunded "bob" (by decide)⟩

/-- C10: for a registered caller, `withdraw_balances` writes nothing but
the config's `available_balance` field: the agent registry (including
the caller's stored balance) and both queues are exactly unchanged, the
config's other fields are preserved, and the returned submessages are
the settlement of the caller's whole stored balance to her payable
account. -/
theorem c10_withdraw_frame (info : MessageInfo) (s : StorageState) (agent : Agent)
    (h : lookupAgent s.agents info.sender = some agent) :
    withdraw_balances info s =
      .ok ({ s with config := { s.config with available_balance := minus_native_tokens s.config.available_balance agent.balance.native } },
           (send_tokens agent.payable_account_id agent.balance).1) := by
  unfold withdraw_balances
  rw [h]
  rfl

/-- Witness for C10 at a concrete input: `alice` withdrawing on
`sFunded`. -/
theorem c10_withdraw_frame_witness :
    lookupAgent sFunded.agents infoAlice.sender = some agentAlice ∧
    withdraw_balances infoAlice sFunded =
      .ok ({ sFunded with config := { sFunded.config with available_balance := minus_native_tokens sFunded.config.available_balance agentAlice.balance.native } },
           (send_tokens agentAlice.payable_account_id agentAlice.balance).1) :=
  ⟨rfl, c10_withdraw_frame infoAlice sFunded agentAlice rfl⟩

end Croncat
